import Mathlib

/-!
Verification development for the CCV Research UI repository.

Text is modelled as `List Char`.  The Python code parses LLM output with
`re.search` over fixed open/close delimiter pairs and the lazy pattern
`open(.*?)close` under `re.DOTALL`; `extractDelim` below reproduces that
semantics (leftmost position where the open tag matches and a close tag
occurs later; the captured group runs to the first close tag).
-/

namespace CCV

/-- ASCII whitespace, matching what Python's `str.strip()` removes on the
inputs that occur here. -/
def isSpaceChar (c : Char) : Bool :=
  c = ' ' || c = '\t' || c = '\n' || c = '\r' || c = '\x0b' || c = '\x0c'

/-- Python `str.strip()`: drop whitespace from both ends. -/
def trimChars (s : List Char) : List Char :=
  ((s.dropWhile isSpaceChar).reverse.dropWhile isSpaceChar).reverse

/-- Whether `pat` occurs as a contiguous substring of `s`
(Python's `pat in s`). -/
def containsSub (pat : List Char) : List Char → Bool
  | [] => pat.isEmpty
  | c :: rest => pat.isPrefixOf (c :: rest) || containsSub pat rest

/-- Text before the first occurrence of `pat` in `s`; `none` when `pat`
does not occur.  This is the lazy capture `(.*?)pat` of Python's `re`
with `re.DOTALL`. -/
def takeUntil (pat : List Char) : List Char → Option (List Char)
  | [] => none
  | c :: rest =>
    if pat.isPrefixOf (c :: rest) then some []
    else (takeUntil pat rest).map (c :: ·)

/-- `re.search(open + '(.*?)' + close, s, re.DOTALL)`'s captured group:
scan for the leftmost occurrence of `openT` that is followed by `closeT`,
and return the text strictly between them. -/
def extractDelim (openT closeT : List Char) : List Char → Option (List Char)
  | [] => none
  | c :: rest =>
    if openT.isPrefixOf (c :: rest) then
      match takeUntil closeT ((c :: rest).drop openT.length) with
      | some inner => some inner
      | none => extractDelim openT closeT rest
    else extractDelim openT closeT rest

/-- Python `str(n)` for a natural number. -/
def natChars (n : Nat) : List Char := Nat.toDigits 10 n

/-- `s` contains no `'<'` character, so no XML-style tag can start
inside it. -/
def noLT (s : List Char) : Bool := s.all (fun c => c ≠ '<')

/-- Every nonempty suffix of `s` neither starts an occurrence of `pat`
nor is a proper beginning of one; hence no occurrence of `pat` can start
inside `s`, whatever text follows `s`. -/
def cleanBefore (pat : List Char) : List Char → Bool
  | [] => true
  | c :: rest =>
    !(pat.isPrefixOf (c :: rest)) && !((c :: rest).isPrefixOf pat) &&
      cleanBefore pat rest

end CCV

namespace CCV

/-! ## `apc_research.py`: `parse_structured_research` -/

/-- `f"<SECTION_{i}>"` -/
def sectionOpenTag (i : Nat) : List Char :=
  ("<SECTION_".data) ++ natChars i ++ (">".data)

/-- `f"</SECTION_{i}>"` -/
def sectionCloseTag (i : Nat) : List Char :=
  ("</SECTION_".data) ++ natChars i ++ (">".data)

def titleOpenTag : List Char := "<TITLE>".data
def titleCloseTag : List Char := "</TITLE>".data
def contentOpenTag : List Char := "<CONTENT>".data
def contentCloseTag : List Char := "</CONTENT>".data
def finalOpenTag : List Char := "<FINAL_ASSESSMENT>".data
def finalCloseTag : List Char := "</FINAL_ASSESSMENT>".data

/-- The literal placeholder content in the source
(`"... This section was not generated in the response."`, with the
mojibake warning-sign prefix exactly as the bytes of the file have it). -/
def notGeneratedWarning : List Char :=
  "‚ö†Ô∏è This section was not generated in the response.".data

/-- The literal placeholder final-assessment text in the source. -/
def finalPlaceholder : List Char :=
  "‚ö†Ô∏è Final assessment not available.".data

/-- One parsed research section (the dict
`{'num': …, 'name': …, 'title': …, 'content': …}`). -/
structure ResearchSection where
  num : List Char
  name : List Char
  title : List Char
  content : List Char
deriving DecidableEq, Repr

/-- The placeholder record built in the `else` branch of
`parse_structured_research` when `<SECTION_i>…</SECTION_i>` is absent. -/
def placeholderSection (i : Nat) : ResearchSection :=
  { num := natChars i
    name := ("Section ".data) ++ natChars i
    title := ("SECTION ".data) ++ natChars i ++ (" - Not Available".data)
    content := notGeneratedWarning }

/-- The per-index body of the `for i in range(1, 7)` loop of
`parse_structured_research`. -/
def parseSection (i : Nat) (input : List Char) : ResearchSection :=
  match extractDelim (sectionOpenTag i) (sectionCloseTag i) input with
  | some inner =>
    let title :=
      match extractDelim titleOpenTag titleCloseTag inner with
      | some t => trimChars t
      | none => ("Section ".data) ++ natChars i
    let content :=
      match extractDelim contentOpenTag contentCloseTag inner with
      | some c => trimChars c
      | none => []
    { num := natChars i
      name := title
      title := ("SECTION ".data) ++ natChars i ++ (" - ".data) ++ title
      content := content }
  | none => placeholderSection i

/-- The final-assessment part of `parse_structured_research`: when the
`<FINAL_ASSESSMENT>` block is found but has no inner `<CONTENT>` block,
the whole inner block is stripped and used. -/
def parseFinalAssessment (input : List Char) : List Char :=
  match extractDelim finalOpenTag finalCloseTag input with
  | some block =>
    match extractDelim contentOpenTag contentCloseTag block with
    | some c => trimChars c
    | none => trimChars block
  | none => finalPlaceholder

/-- `parse_structured_research(llm_response)`: six sections (loop
`i = 1..6`) plus the final-assessment text. -/
def parse_structured_research (llm_response : List Char) :
    List ResearchSection × List Char :=
  ((List.range 6).map (fun k => parseSection (k + 1) llm_response),
    parseFinalAssessment llm_response)

/-! ## `apc_research.py`: `parse_cpt_codes` -/

/-- Python `str.split(sep)` for a single-character separator: fields
between occurrences, empty fields kept (`"a\nb".split('\n')`). -/
def splitOnChar (sep : Char) : List Char → List (List Char)
  | [] => [[]]
  | c :: rest =>
    if c = sep then [] :: splitOnChar sep rest
    else
      match splitOnChar sep rest with
      | [] => [[c]]
      | f :: fs => (c :: f) :: fs

/-- Fuel-driven worker for multi-character `str.split`: `acc` holds the
current field reversed. -/
def splitSubGo (sep : List Char) : Nat → List Char → List Char → List (List Char)
  | 0, acc, s => [acc.reverse ++ s]
  | _ + 1, acc, [] => [acc.reverse]
  | fuel + 1, acc, c :: rest =>
    if sep.isPrefixOf (c :: rest) then
      acc.reverse :: splitSubGo sep fuel [] ((c :: rest).drop sep.length)
    else splitSubGo sep fuel (c :: acc) rest

/-- Python `str.split(sep)` for a multi-character separator: repeatedly
cut at the leftmost occurrence of `sep`.  Element `[1]` of the result is
the text between the first and second occurrence. -/
def splitOnSub (sep s : List Char) : List (List Char) :=
  splitSubGo sep (s.length + 1) [] s

def codeMarker : List Char := "CODE:".data
def descMarker : List Char := "DESCRIPTION:".data

/-- The `try` body of `parse_cpt_codes` for one line:
`parts = line.split('|')`, `parts[0].split('CODE:')[1].strip()`,
`parts[1].split('DESCRIPTION:')[1].strip()`; any missing index makes the
line be skipped (`except: continue`). -/
def parseCptLine (line : List Char) : Option (List Char × List Char) :=
  match splitOnChar '|' line with
  | p0 :: p1 :: _ =>
    match splitOnSub codeMarker p0, splitOnSub descMarker p1 with
    | _ :: cp :: _, _ :: dp :: _ => some (trimChars cp, trimChars dp)
    | _, _ => none
  | _ => none

/-- `parse_cpt_codes(llm_response)`: strip the whole text, split into
lines, keep lines containing both markers, parse each, silently dropping
malformed ones. -/
def parse_cpt_codes (llm_response : List Char) : List (List Char × List Char) :=
  (splitOnChar '\n' (trimChars llm_response)).filterMap fun line =>
    if containsSub codeMarker line && containsSub descMarker line then
      parseCptLine line
    else none

/-! ## `apc_research.py`: `compute_audit_window`

`datetime` date arithmetic is modelled by the standard civil-calendar
conversion between (year, month, day) triples and a running day count
(Gregorian, as Python's `datetime.date` uses); `datetime.now()` becomes
an explicit `today` parameter. -/

/-- Day number of a Gregorian date (civil algorithm, era-based; valid
for the modern dates used here). -/
def daysFromCivil (y m d : Nat) : Nat :=
  let yy := if m ≤ 2 then y - 1 else y
  let era := yy / 400
  let yoe := yy % 400
  let mp := if m > 2 then m - 3 else m + 9
  let doy := (153 * mp + 2) / 5 + d - 1
  let doe := yoe * 365 + yoe / 4 - yoe / 100 + doy
  era * 146097 + doe

/-- Inverse of `daysFromCivil`: the Gregorian date of a day number. -/
def civilFromDays (z : Nat) : Nat × Nat × Nat :=
  let era := z / 146097
  let doe := z % 146097
  let yoe := (doe - doe / 1460 + doe / 36524 - doe / 146096) / 365
  let y := yoe + era * 400
  let doy := doe - (365 * yoe + yoe / 4 - yoe / 100)
  let mp := (5 * doy + 2) / 153
  let d := doy - (153 * mp + 2) / 5 + 1
  let m := if mp < 10 then mp + 3 else mp - 9
  (if m ≤ 2 then y + 1 else y, m, d)

/-- `strftime("%Y-%m-%d")`: zero-padded month and day. -/
def pad2 (n : Nat) : List Char :=
  if n < 10 then '0' :: natChars n else natChars n

def formatDate (ymd : Nat × Nat × Nat) : List Char :=
  natChars ymd.1 ++ ("-".data) ++ pad2 ymd.2.1 ++ ("-".data) ++ pad2 ymd.2.2

/-- `compute_audit_window()`: `current_date - timedelta(days=1095)`
through `current_date`, both formatted `"%Y-%m-%d"`; `datetime.now()` is
the `today` parameter. -/
def compute_audit_window (today : Nat × Nat × Nat) : List Char × List Char :=
  let startN := daysFromCivil today.1 today.2.1 today.2.2 - 1095
  (formatDate (civilFromDays startN), formatDate today)

/-! ## `apc_research.py`: LLM-calling paths (`generate_cpt_codes_from_topic`,
`chat_with_section`)

`query_llm` can raise; the call is modelled as a function argument
returning `Except`: `.error e` is a raised exception whose `str(e)` is
`e`. -/

structure ChatMsg where
  role : List Char
  content : List Char
deriving DecidableEq, Repr

def cptPromptPre : List Char :=
  "\nYou are a medical coding expert. Given the following medical procedure or condition topic, provide the top 5 most relevant CPT codes.\n\nTopic: ".data

def cptPromptPost : List Char :=
  "\n\nFor each CPT code, provide:\n1. The CPT code number\n2. A brief description (one line)\n\nFormat your response EXACTLY as follows (one code per line):\nCODE: [5-digit code] | DESCRIPTION: [brief description]\n\nExample format:\nCODE: 99213 | DESCRIPTION: Office visit, established patient, moderate complexity\nCODE: 99214 | DESCRIPTION: Office visit, established patient, high complexity\n\nProvide exactly 5 CPT codes. If the topic is too vague or unclear, provide the most commonly associated codes.\n".data

def cptMessages (topic : List Char) : List ChatMsg :=
  [⟨"system".data, "You are an expert medical coding specialist with deep knowledge of CPT codes.".data⟩,
   ⟨"user".data, cptPromptPre ++ topic ++ cptPromptPost⟩]

/-- `generate_cpt_codes_from_topic(topic, model)`: on an exception from
the LLM call, returns `f"Error generating CPT codes: {str(e)}"`. -/
def generate_cpt_codes_from_topic
    (llm : List ChatMsg → Except (List Char) (List Char))
    (topic : List Char) : List Char :=
  match llm (cptMessages topic) with
  | .ok response => response
  | .error e => ("Error generating CPT codes: ".data) ++ e

def chatContextPre : List Char :=
  "\nYou are assisting with APC (Ambulatory Payment Classification) research for CPT code: ".data

def chatContextMid : List Char :=
  "\n\nHere is the research content for this section:\n---\n".data

def chatContextPost : List Char :=
  "\n---\n\nThe user has a follow-up question about this content. Please answer based on the research above and your medical coding expertise.\n".data

def chatMessages (section_content cpt_code user_question : List Char)
    (chat_history : List (List Char × List Char)) : List ChatMsg :=
  ⟨"system".data,
    chatContextPre ++ cpt_code ++ chatContextMid ++ section_content ++ chatContextPost⟩ ::
    chat_history.foldr
      (fun ch acc => ⟨"user".data, ch.1⟩ :: ⟨"assistant".data, ch.2⟩ :: acc)
      [⟨"user".data, user_question⟩]

/-- `chat_with_section(...)`: on an exception from the LLM call, returns
`f"Error: {str(e)}"`. -/
def chat_with_section
    (llm : List ChatMsg → Except (List Char) (List Char))
    (section_content cpt_code user_question : List Char)
    (chat_history : List (List Char × List Char)) : List Char :=
  match llm (chatMessages section_content cpt_code user_question chat_history) with
  | .ok response => response
  | .error e => ("Error: ".data) ++ e

/-! ## `apc_research.py`: notes and chat stores

Each sqlite table is modelled as a list of rows in insertion order
(`INSERT` appends; autoincrement ids are the positions and are not
modelled separately).  `datetime.now().strftime(...)` becomes an
explicit `timestamp` argument. -/

structure Note where
  session_id : List Char
  cpt_code : List Char
  notes_text : List Char
  created_at : List Char
  updated_at : List Char
deriving DecidableEq, Repr

def noteKeyMatch (sid code : List Char) (r : Note) : Bool :=
  (r.session_id == sid) && (r.cpt_code == code)

/-- The effect of the `UPDATE notes SET notes_text = ?, updated_at = ?
WHERE session_id = ? AND cpt_code = ?` statement on one row. -/
def updateNote (sid code notes_text timestamp : List Char) (r : Note) : Note :=
  if noteKeyMatch sid code r then
    { r with notes_text := notes_text, updated_at := timestamp }
  else r

/-- `save_notes`: `SELECT id ... WHERE session_id = ? AND cpt_code = ?`,
then `UPDATE` every row of that key if one exists, else `INSERT`. -/
def save_notes (st : List Note)
    (session_id cpt_code notes_text timestamp : List Char) : List Note :=
  if st.any (noteKeyMatch session_id cpt_code) then
    st.map (updateNote session_id cpt_code notes_text timestamp)
  else st ++ [⟨session_id, cpt_code, notes_text, timestamp, timestamp⟩]

/-- The rows stored for one `(session_id, cpt_code)` key. -/
def notesFor (st : List Note) (sid code : List Char) : List Note :=
  st.filter (noteKeyMatch sid code)

/-- `get_notes`: `fetchone` on the key, `""` when absent. -/
def get_notes (st : List Note) (sid code : List Char) : List Char :=
  match st.find? (noteKeyMatch sid code) with
  | some r => r.notes_text
  | none => []

structure ChatRow where
  session_id : List Char
  cpt_code : List Char
  section_id : List Char
  user_message : List Char
  ai_response : List Char
  created_at : List Char
deriving DecidableEq, Repr

def chatKeyMatch (sid code sec : List Char) (r : ChatRow) : Bool :=
  (r.session_id == sid) && (r.cpt_code == code) && (r.section_id == sec)

/-- `save_chat_message`: unconditional `INSERT`. -/
def save_chat_message (st : List ChatRow)
    (sid code sec user_message ai_response timestamp : List Char) : List ChatRow :=
  st ++ [⟨sid, code, sec, user_message, ai_response, timestamp⟩]

/-- Byte-wise lexicographic strict order on text: SQLite's `TEXT`
comparison used by `ORDER BY created_at ASC`. -/
def ltChars : List Char → List Char → Bool
  | [], [] => false
  | [], _ :: _ => true
  | _ :: _, [] => false
  | a :: as, b :: bs => if a = b then ltChars as bs else decide (a < b)

/-- Stable insertion (keeps earlier rows first on equal timestamps). -/
def insertByTs (r : ChatRow) : List ChatRow → List ChatRow
  | [] => [r]
  | x :: xs =>
    if ltChars x.created_at r.created_at then x :: insertByTs r xs
    else r :: x :: xs

def sortByTs : List ChatRow → List ChatRow
  | [] => []
  | x :: xs => insertByTs x (sortByTs xs)

/-- The rows stored for one `(session_id, cpt_code, section_id)` key. -/
def chatFor (st : List ChatRow) (sid code sec : List Char) : List ChatRow :=
  st.filter (chatKeyMatch sid code sec)

/-- `get_chat_history`: rows of the key ordered by `created_at ASC`,
projected to `{"user", "ai", "timestamp"}`. -/
def get_chat_history (st : List ChatRow) (sid code sec : List Char) :
    List (List Char × List Char × List Char) :=
  (sortByTs (chatFor st sid code sec)).map fun r =>
    (r.user_message, r.ai_response, r.created_at)

/-! ## `db.py`: the interactions store -/

structure Interaction where
  session_id : List Char
  topic : List Char
  persona : List Char
  question : List Char
  response : List Char
  timestamp : List Char
deriving DecidableEq, Repr

/-- `save_interaction`: unconditional `INSERT` (timestamp defaulted by
sqlite, here an explicit argument). -/
def save_interaction (st : List Interaction)
    (sid topic persona question response ts : List Char) : List Interaction :=
  st ++ [⟨sid, topic, persona, question, response, ts⟩]

/-- `rename_session`: `UPDATE interactions SET topic = ? WHERE
session_id = ?` — every row of the session, all other fields kept. -/
def rename_session (st : List Interaction) (sid new_topic : List Char) :
    List Interaction :=
  st.map fun r =>
    if r.session_id = sid then { r with topic := new_topic } else r

/-- Modelled from the spec: `delete_session` is imported from the db
module by `app.py` but its definition is not among the provided source
files.  Per the spec (§3, §4.4), the explicit user delete removes that
session's interaction rows and leaves every other session's rows
unchanged. -/
def delete_session (st : List Interaction) (sid : List Char) : List Interaction :=
  st.filter fun r => !(r.session_id == sid)

/-- The rows of one session, in stored order. -/
def rowsOfSession (st : List Interaction) (sid : List Char) : List Interaction :=
  st.filter fun r => r.session_id == sid

/-! ## `llm_wrapper.py`: `query_llm` request dispatch

The process environment is a lookup function; the network call itself is
not modelled — the outcome records which request `query_llm` attempts
(or that it raises the `ValueError` configuration error before any
request). -/

structure AzureConfig where
  deployment : List Char
  api_key : Option (List Char)
  endpoint : Option (List Char)
  api_version : List Char
deriving DecidableEq, Repr

def medgemmaName : List Char := "medgemma-27b-multimodal7".data

/-- `MODEL_CONFIGS.get(model)` for the Azure-backed entries of the
dict; the medgemma entry is consumed only inside `query_llm`'s medgemma
branch and is read there directly. -/
def MODEL_CONFIGS (env : List Char → Option (List Char)) (model : List Char) :
    Option AzureConfig :=
  if model = "gpt-4.1".data then
    some ⟨"gpt-4.1".data, env ("AZURE_OPENAI_API_KEY".data),
      env ("AZURE_OPENAI_ENDPOINT".data), "2024-12-01-preview".data⟩
  else if model = "gpt-4.1-mini".data then
    some ⟨"gpt-4.1-mini".data, env ("AZURE_OPENAI_API_KEY".data),
      env ("AZURE_OPENAI_ENDPOINT".data), "2024-12-01-preview".data⟩
  else if model = "gpt-4.1-nano".data then
    some ⟨"gpt-4.1-nano".data, env ("AZURE_OPENAI_API_KEY".data),
      env ("AZURE_OPENAI_ENDPOINT".data), "2024-12-01-preview".data⟩
  else if model = "gpt-5".data then
    some ⟨"gpt-5".data, env ("AZURE_OPENAI_API_KEY_GPT_5".data),
      env ("AZURE_OPENAI_ENDPOINT_GPT_5".data), "2025-01-01-preview".data⟩
  else if model = "gpt-5-mini".data then
    some ⟨"gpt-5-mini".data, env ("AZURE_OPENAI_API_KEY_GPT_5_MINI".data),
      env ("AZURE_OPENAI_ENDPOINT_GPT_5_MINI".data), "2025-04-01-preview".data⟩
  else if model = "gpt-5-nano".data then
    some ⟨"gpt-5-nano".data, env ("AZURE_OPENAI_API_KEY_GPT_5_NANO".data),
      env ("AZURE_OPENAI_ENDPOINT_GPT_5_NANO".data), "2025-01-01-preview".data⟩
  else none

/-- Python truthiness of an optional string: `None` and `""` are falsy. -/
def truthy : Option (List Char) → Bool
  | none => false
  | some s => !s.isEmpty

inductive QueryOutcome where
  | configError (msg : List Char)
  | azureRequest (deployment api_key endpoint api_version : List Char)
      (useTemperature : Bool)
  | medgemmaRequest (url : Option (List Char))
deriving DecidableEq, Repr

def configErrorMsg (model : List Char) : List Char :=
  ("Missing API key or endpoint for model: ".data) ++ model

/-- `query_llm(messages, model)` up to the point where a request is
issued: the medgemma branch posts to the configured URL with no
validation; the default branch raises
`ValueError(f"Missing API key or endpoint for model: {model}")` when the
config is absent or its key/endpoint is falsy. -/
def query_llm (env : List Char → Option (List Char)) (model : List Char) :
    QueryOutcome :=
  if model = medgemmaName then
    .medgemmaRequest (env ("MEDGEMMA_MODEL_URL".data))
  else
    match MODEL_CONFIGS env model with
    | none => .configError (configErrorMsg model)
    | some config =>
      if !truthy config.api_key || !truthy config.endpoint then
        .configError (configErrorMsg model)
      else
        .azureRequest config.deployment (config.api_key.getD [])
          (config.endpoint.getD []) config.api_version
          ((model == "gpt-4.1".data) || (model == "gpt-4.1-mini".data) ||
            (model == "gpt-4.1-nano".data))

def isConfigError : QueryOutcome → Bool
  | .configError _ => true
  | _ => false

/-- The keys of `MODEL_CONFIGS` (the supported model names). -/
def MODEL_NAMES : List (List Char) :=
  ["gpt-4.1".data, "gpt-4.1-mini".data, "gpt-4.1-nano".data,
   "gpt-5".data, "gpt-5-mini".data, "gpt-5-nano".data, medgemmaName]

/-- The six Azure-backed model names (all of `MODEL_NAMES` except
medgemma). -/
def azureModelNames : List (List Char) :=
  ["gpt-4.1".data, "gpt-4.1-mini".data, "gpt-4.1-nano".data,
   "gpt-5".data, "gpt-5-mini".data, "gpt-5-nano".data]

/-- The environment variable holding the API key of an Azure model. -/
def keyVarOf (model : List Char) : List Char :=
  if model = "gpt-5".data then "AZURE_OPENAI_API_KEY_GPT_5".data
  else if model = "gpt-5-mini".data then "AZURE_OPENAI_API_KEY_GPT_5_MINI".data
  else if model = "gpt-5-nano".data then "AZURE_OPENAI_API_KEY_GPT_5_NANO".data
  else "AZURE_OPENAI_API_KEY".data

/-- The environment variable holding the endpoint of an Azure model. -/
def endpointVarOf (model : List Char) : List Char :=
  if model = "gpt-5".data then "AZURE_OPENAI_ENDPOINT_GPT_5".data
  else if model = "gpt-5-mini".data then "AZURE_OPENAI_ENDPOINT_GPT_5_MINI".data
  else if model = "gpt-5-nano".data then "AZURE_OPENAI_ENDPOINT_GPT_5_NANO".data
  else "AZURE_OPENAI_ENDPOINT".data

/-! ## The claimed reading of `parse_cpt_codes`

The claim (and spec §4.3) describe the per-line parse as a split on the
*first* pipe; the following definitions state that reading literally so
it can be compared with the source's `line.split('|')` + `parts[1]`. -/

/-- Text before and after the first occurrence of `sep`. -/
def splitFirstChar (sep : Char) : List Char → Option (List Char × List Char)
  | [] => none
  | c :: rest =>
    if c = sep then some ([], rest)
    else (splitFirstChar sep rest).map fun p => (c :: p.1, p.2)

/-- Everything after the first occurrence of marker `m`. -/
def afterMarker (m : List Char) : List Char → Option (List Char)
  | [] => none
  | c :: rest =>
    if m.isPrefixOf (c :: rest) then some ((c :: rest).drop m.length)
    else afterMarker m rest

/-- The claim's reading of `parse_cpt_codes`: keep lines with both
markers, split each on the *first* pipe, take the code after `CODE:` in
the left part and the description after `DESCRIPTION:` in the right
part, trim both. -/
def parse_cpt_codes_claim (llm_response : List Char) :
    List (List Char × List Char) :=
  (splitOnChar '\n' (trimChars llm_response)).filterMap fun line =>
    if containsSub codeMarker line && containsSub descMarker line then
      match splitFirstChar '|' line with
      | some (a, b) =>
        match afterMarker codeMarker a, afterMarker descMarker b with
        | some cp, some dp => some (trimChars cp, trimChars dp)
        | _, _ => none
      | none => none
    else none

/-! ## Concrete inputs used in witnesses and counterexamples -/

def wTitle1 : List Char := "Code Description Analysis".data

def wContent1 : List Char := " line one of the analysis ".data

/-- A small response containing a single well-formed section block. -/
def wDoc1 : List Char :=
  sectionOpenTag 1 ++ titleOpenTag ++ wTitle1 ++ titleCloseTag ++ ("\n".data) ++
    contentOpenTag ++ wContent1 ++ contentCloseTag ++ sectionCloseTag 1

def wFinalBody : List Char := " Overall priority: Low ".data

/-- The spec's two-line example input for `parse_cpt_codes`. -/
def cptExampleInput : List Char :=
  "CODE: 10021 | DESCRIPTION: Fine needle aspiration\nCODE: 10022 | DESCRIPTION: FNA, each additional".data

/-- A line whose description contains a second pipe, separating the
source's behaviour from the claim's first-pipe description. -/
def cptCexInput : List Char := "CODE: 1 | DESCRIPTION: a | b".data

def wRowA : Interaction :=
  ⟨"s1".data, "old topic".data, "Analysts".data, "q1".data, "r1".data, "t1".data⟩

def wRowB : Interaction :=
  ⟨"s2".data, "other topic".data, "CDAs".data, "q2".data, "r2".data, "t2".data⟩

-- Sanity examples exercising kernel reduction of the embedding.
example : natChars 3 = ['3'] := by decide
example : trimChars (" ab ".data) = "ab".data := by decide
example : extractDelim ("<A>".data) ("</A>".data) ("x<A>hi</A>y".data) = some ("hi".data) := by
  decide
example : extractDelim ("<A>".data) ("</A>".data) ("x<A>hi/A>y".data) = none := by decide
example :
    extractDelim ("<A>".data) ("</A>".data) ("<A>a<A>b</A>c</A>".data) =
      some ("a<A>b".data) := by decide
example : extractDelim ("<A>".data) ("</A>".data) ("junk</A><A>tail".data) = none := by
  decide
example : containsSub ("CODE:".data) ("a CODE: b".data) = true := by decide
example : compute_audit_window (2024, 6, 15) = ("2021-06-16".data, "2024-06-15".data) := by
  decide
example : civilFromDays (daysFromCivil 2024 2 29) = (2024, 2, 29) := by decide
example : civilFromDays (daysFromCivil 2021 6 16 + 1095) = (2024, 6, 15) := by decide
example :
    parse_cpt_codes ("CODE: 10021 | DESCRIPTION: Fine needle aspiration".data) =
      [("10021".data, "Fine needle aspiration".data)] := by decide
example :
    (parse_structured_research []).1.length = 6 ∧
      (parse_structured_research []).2 = finalPlaceholder := by decide
example :
    query_llm (fun _ => none) ("gpt-4.1".data) =
      .configError (configErrorMsg ("gpt-4.1".data)) := by decide
example : query_llm (fun _ => none) medgemmaName = .medgemmaRequest none := by decide

end CCV

namespace CCV

/-! ## Lemmas about the text-scanning primitives -/

/-- A pattern that matches at the head of `x ++ rest` either matches at
the head of `x` alone or reaches past `x`. -/
lemma pref_of_append_cases {pat x rest : List Char} (h : pat <+: x ++ rest) :
    pat <+: x ∨ x <+: pat :=
  List.prefix_or_prefix_of_prefix h (List.prefix_append x rest)

/-- If `pat` neither matches at `c :: a` nor could continue past it,
then it does not match at `c :: a` whatever follows. -/
lemma clean_head_false {pat : List Char} {c : Char} {a : List Char} (rest : List Char)
    (h1 : pat.isPrefixOf (c :: a) = false) (h2 : (c :: a).isPrefixOf pat = false) :
    pat.isPrefixOf (c :: (a ++ rest)) = false := by
  cases hx : pat.isPrefixOf (c :: (a ++ rest)) with
  | false => rfl
  | true =>
    exfalso
    have hp : pat <+: (c :: a) ++ rest := by
      rw [List.cons_append]; simpa using hx
    rcases pref_of_append_cases hp with h' | h'
    · rw [ List.isPrefixOf_iff_prefix.mpr h'] at h1
      exact Bool.noConfusion h1
    · rw [ List.isPrefixOf_iff_prefix.mpr h'] at h2
      exact Bool.noConfusion h2

lemma takeUntil_clean_append (pat a rest : List Char) :
    cleanBefore pat a = true →
      takeUntil pat (a ++ rest) = (takeUntil pat rest).map (a ++ ·) := by
  induction a with
  | nil =>
    intro _
    cases htu : takeUntil pat rest <;> simp [htu]
  | cons c a ih =>
    intro h
    simp only [cleanBefore, Bool.and_eq_true, Bool.not_eq_true'] at h
    obtain ⟨⟨h1, h2⟩, h3⟩ := h
    have hnp := clean_head_false rest h1 h2
    rw [List.cons_append]
    simp only [takeUntil, hnp, Bool.false_eq_true, if_false, ih h3]
    cases htu : takeUntil pat rest <;> simp [htu]

lemma takeUntil_self (pat rest : List Char) (hne : pat ≠ []) :
    takeUntil pat (pat ++ rest) = some [] := by
  cases pat with
  | nil => exact absurd rfl hne
  | cons p ps =>
    have hpref : (p :: ps).isPrefixOf (p :: (ps ++ rest)) = true := by
      rw [ List.isPrefixOf_iff_prefix]
      exact ⟨rest, by simp⟩
    rw [List.cons_append]
    simp only [takeUntil, hpref, if_true]

/-- `takeUntil` finds the close tag placed right after a clean body. -/
lemma takeUntil_parts (pat a rest : List Char)
    (hne : pat ≠ []) (h : cleanBefore pat a = true) :
    takeUntil pat (a ++ pat ++ rest) = some a := by
  rw [List.append_assoc, takeUntil_clean_append pat a (pat ++ rest) h,
    takeUntil_self pat rest hne]
  simp

lemma extractDelim_clean_append (o c a rest : List Char) :
    cleanBefore o a = true →
      extractDelim o c (a ++ rest) = extractDelim o c rest := by
  induction a with
  | nil => intro _; simp
  | cons x a ih =>
    intro h
    simp only [cleanBefore, Bool.and_eq_true, Bool.not_eq_true'] at h
    obtain ⟨⟨h1, h2⟩, h3⟩ := h
    have hnp := clean_head_false rest h1 h2
    rw [List.cons_append]
    simp only [extractDelim, hnp, Bool.false_eq_true, if_false, ih h3]

lemma extractDelim_at_open (o c : List Char) {rest inner : List Char}
    (ho : o ≠ []) (h : takeUntil c rest = some inner) :
    extractDelim o c (o ++ rest) = some inner := by
  cases o with
  | nil => exact absurd rfl ho
  | cons p ps =>
    have hpref : (p :: ps).isPrefixOf (p :: (ps ++ rest)) = true := by
      rw [ List.isPrefixOf_iff_prefix]
      exact ⟨rest, by simp⟩
    have hdrop : (p :: (ps ++ rest)).drop (p :: ps).length = rest := by
      rw [← List.cons_append]
      exact List.drop_left _ _
    rw [List.cons_append]
    simp only [extractDelim, hpref, if_true, hdrop, h]

lemma extractDelim_none_of_clean (o c s : List Char) :
    cleanBefore o s = true → extractDelim o c s = none := by
  induction s with
  | nil => intro _; rfl
  | cons x s ih =>
    intro h
    simp only [cleanBefore, Bool.and_eq_true, Bool.not_eq_true'] at h
    obtain ⟨⟨h1, _⟩, h3⟩ := h
    simp only [extractDelim, h1, Bool.false_eq_true, if_false, ih h3]

lemma cleanBefore_append {pat : List Char} (a b : List Char) :
    cleanBefore pat a = true → cleanBefore pat b = true →
      cleanBefore pat (a ++ b) = true := by
  induction a with
  | nil => intro _ hb; simpa using hb
  | cons c a ih =>
    intro ha hb
    simp only [cleanBefore, Bool.and_eq_true, Bool.not_eq_true'] at ha
    obtain ⟨⟨h1, h2⟩, h3⟩ := ha
    rw [List.cons_append]
    simp only [cleanBefore, Bool.and_eq_true, Bool.not_eq_true']
    refine ⟨⟨clean_head_false b h1 h2, ?_⟩, ih h3 hb⟩
    cases hx : (c :: (a ++ b)).isPrefixOf pat with
    | false => rfl
    | true =>
      exfalso
      have hp : (c :: (a ++ b)) <+: pat := by
        exact List.isPrefixOf_iff_prefix.mp hx
      have hp2 : (c :: a) <+: pat :=
        List.IsPrefix.trans (by rw [← List.cons_append]; exact List.prefix_append _ _) hp
      rw [ List.isPrefixOf_iff_prefix.mpr hp2] at h2
      exact Bool.noConfusion h2

/-- Text without `'<'` is clean for any pattern starting with `'<'`. -/
lemma cleanBefore_of_noLT {s : List Char} (p' : List Char) :
    noLT s = true → cleanBefore ('<' :: p') s = true := by
  induction s with
  | nil => intro _; rfl
  | cons c s ih =>
    intro h
    simp only [noLT, List.all_cons, Bool.and_eq_true, decide_eq_true_eq] at h
    obtain ⟨hc, hs⟩ := h
    have hbc : (c == '<') = false := by
      simpa using hc
    have hcb : ('<' == c) = false := by
      simpa using (Ne.symm hc)
    simp only [cleanBefore, Bool.and_eq_true, Bool.not_eq_true']
    refine ⟨⟨?_, ?_⟩, ih (by simpa [noLT] using hs)⟩
    · simp [List.isPrefixOf, hcb]
    · simp [List.isPrefixOf, hbc]

lemma cleanBefore_headLT {pat s : List Char} (hp : ∃ p', pat = '<' :: p')
    (h : noLT s = true) : cleanBefore pat s = true := by
  obtain ⟨p', rfl⟩ := hp
  exact cleanBefore_of_noLT p' h

lemma sectionOpenTag_head (i : Nat) :
    ∃ p', sectionOpenTag i = '<' :: p' := ⟨_, rfl⟩

lemma sectionCloseTag_head (i : Nat) :
    ∃ p', sectionCloseTag i = '<' :: p' := ⟨_, rfl⟩

lemma titleCloseTag_head : ∃ p', titleCloseTag = '<' :: p' := ⟨_, rfl⟩

lemma contentOpenTag_head : ∃ p', contentOpenTag = '<' :: p' := ⟨_, rfl⟩

lemma contentCloseTag_head : ∃ p', contentCloseTag = '<' :: p' := ⟨_, rfl⟩

lemma finalCloseTag_head : ∃ p', finalCloseTag = '<' :: p' := ⟨_, rfl⟩

lemma sectionOpenTag_ne_nil (i : Nat) : sectionOpenTag i ≠ [] := by
  obtain ⟨p', hp⟩ := sectionOpenTag_head i
  simp [hp]

lemma sectionCloseTag_ne_nil (i : Nat) : sectionCloseTag i ≠ [] := by
  obtain ⟨p', hp⟩ := sectionCloseTag_head i
  simp [hp]

lemma titleOpenTag_head : ∃ p', titleOpenTag = '<' :: p' := ⟨_, rfl⟩

lemma finalOpenTag_head : ∃ p', finalOpenTag = '<' :: p' := ⟨_, rfl⟩

lemma ne_nil_of_headLT {pat : List Char} (hp : ∃ p', pat = '<' :: p') : pat ≠ [] := by
  obtain ⟨p', rfl⟩ := hp
  simp

/-- A delimited block surrounded by clean context is extracted exactly. -/
lemma extractDelim_of_parts (o c pre body post : List Char)
    (ho : o ≠ []) (hc : c ≠ [])
    (hpre : cleanBefore o pre = true) (hbody : cleanBefore c body = true) :
    extractDelim o c (pre ++ o ++ body ++ c ++ post) = some body := by
  rw [List.append_assoc, List.append_assoc, List.append_assoc,
    extractDelim_clean_append o c pre _ hpre]
  refine extractDelim_at_open o c ho ?_
  have h := takeUntil_parts c body post hc hbody
  rw [List.append_assoc] at h
  exact h

/-- Variant of `extractDelim_of_parts` where the close tag ends the text. -/
lemma extractDelim_of_parts_end (o c pre body : List Char)
    (ho : o ≠ []) (hc : c ≠ [])
    (hpre : cleanBefore o pre = true) (hbody : cleanBefore c body = true) :
    extractDelim o c (pre ++ o ++ body ++ c) = some body := by
  have h := extractDelim_of_parts o c pre body [] ho hc hpre hbody
  simpa using h

/-- The fixed inner tags cannot collide with any section close tag
(checked for every digit the loop uses). -/
lemma sectionTagFacts : ∀ i, i < 7 →
    cleanBefore (sectionCloseTag i) titleOpenTag = true ∧
      cleanBefore (sectionCloseTag i) titleCloseTag = true ∧
      cleanBefore (sectionCloseTag i) contentOpenTag = true ∧
      cleanBefore (sectionCloseTag i) contentCloseTag = true := by
  decide

lemma contentTagFacts :
    cleanBefore contentOpenTag titleOpenTag = true ∧
      cleanBefore contentOpenTag titleCloseTag = true := by
  decide

/-! ## Lemmas about `parseSection` and `parseFinalAssessment` -/

lemma parseSection_absent (i : Nat) (input : List Char)
    (h : extractDelim (sectionOpenTag i) (sectionCloseTag i) input = none) :
    parseSection i input = placeholderSection i := by
  simp [parseSection, h]

lemma parseSection_of_clean (i : Nat) (input : List Char)
    (h : cleanBefore (sectionOpenTag i) input = true) :
    parseSection i input = placeholderSection i :=
  parseSection_absent i input (extractDelim_none_of_clean _ _ _ h)

/-- A well-formed section block parses to its trimmed inner title and
content, whatever clean text surrounds it. -/
lemma parseSection_found_full (i : Nat) (hi : i < 7) (pre t gap c post : List Char)
    (hpre : cleanBefore (sectionOpenTag i) pre = true)
    (ht : noLT t = true) (hgap : noLT gap = true) (hc : noLT c = true) :
    parseSection i
      (pre ++ sectionOpenTag i ++ titleOpenTag ++ t ++ titleCloseTag ++ gap ++
        contentOpenTag ++ c ++ contentCloseTag ++ sectionCloseTag i ++ post) =
      { num := natChars i
        name := trimChars t
        title := ("SECTION ".data) ++ natChars i ++ (" - ".data) ++ trimChars t
        content := trimChars c } := by
  obtain ⟨f1, f2, f3, f4⟩ := sectionTagFacts i hi
  have hbody : cleanBefore (sectionCloseTag i)
      (titleOpenTag ++ t ++ titleCloseTag ++ gap ++ contentOpenTag ++ c ++
        contentCloseTag) = true := by
    exact cleanBefore_append _ _
      (cleanBefore_append _ _
        (cleanBefore_append _ _
          (cleanBefore_append _ _
            (cleanBefore_append _ _
              (cleanBefore_append _ _ f1
                (cleanBefore_headLT (sectionCloseTag_head i) ht)) f2)
            (cleanBefore_headLT (sectionCloseTag_head i) hgap)) f3)
        (cleanBefore_headLT (sectionCloseTag_head i) hc)) f4
  have hsec : extractDelim (sectionOpenTag i) (sectionCloseTag i)
      (pre ++ sectionOpenTag i ++ titleOpenTag ++ t ++ titleCloseTag ++ gap ++
        contentOpenTag ++ c ++ contentCloseTag ++ sectionCloseTag i ++ post) =
      some (titleOpenTag ++ t ++ titleCloseTag ++ gap ++ contentOpenTag ++ c ++
        contentCloseTag) := by
    have h := extractDelim_of_parts (sectionOpenTag i) (sectionCloseTag i) pre
      (titleOpenTag ++ t ++ titleCloseTag ++ gap ++ contentOpenTag ++ c ++
        contentCloseTag)
      post (sectionOpenTag_ne_nil i) (sectionCloseTag_ne_nil i) hpre hbody
    simpa [List.append_assoc] using h
  have htitle : extractDelim titleOpenTag titleCloseTag
      (titleOpenTag ++ t ++ titleCloseTag ++ gap ++ contentOpenTag ++ c ++
        contentCloseTag) = some t := by
    have h := extractDelim_of_parts titleOpenTag titleCloseTag [] t
      (gap ++ contentOpenTag ++ c ++ contentCloseTag)
      (ne_nil_of_headLT titleOpenTag_head) (ne_nil_of_headLT titleCloseTag_head)
      rfl (cleanBefore_headLT titleCloseTag_head ht)
    simpa [List.append_assoc] using h
  have hcontent : extractDelim contentOpenTag contentCloseTag
      (titleOpenTag ++ t ++ titleCloseTag ++ gap ++ contentOpenTag ++ c ++
        contentCloseTag) = some c := by
    have hpre2 : cleanBefore contentOpenTag
        (titleOpenTag ++ t ++ titleCloseTag ++ gap) = true :=
      cleanBefore_append _ _
        (cleanBefore_append _ _
          (cleanBefore_append _ _ contentTagFacts.1
            (cleanBefore_headLT contentOpenTag_head ht)) contentTagFacts.2)
        (cleanBefore_headLT contentOpenTag_head hgap)
    have h := extractDelim_of_parts_end contentOpenTag contentCloseTag
      (titleOpenTag ++ t ++ titleCloseTag ++ gap) c
      (ne_nil_of_headLT contentOpenTag_head) (ne_nil_of_headLT contentCloseTag_head)
      hpre2 (cleanBefore_headLT contentCloseTag_head hc)
    simpa [List.append_assoc] using h
  simp only [parseSection, hsec, htitle, hcontent]

/-- A section block whose inner `<CONTENT>` delimiter is missing parses
with content equal to the empty string. -/
lemma parseSection_found_nocontent (i : Nat) (hi : i < 7) (pre t gap post : List Char)
    (hpre : cleanBefore (sectionOpenTag i) pre = true)
    (ht : noLT t = true) (hgap : noLT gap = true) :
    parseSection i
      (pre ++ sectionOpenTag i ++ titleOpenTag ++ t ++ titleCloseTag ++ gap ++
        sectionCloseTag i ++ post) =
      { num := natChars i
        name := trimChars t
        title := ("SECTION ".data) ++ natChars i ++ (" - ".data) ++ trimChars t
        content := [] } := by
  obtain ⟨f1, f2, _, _⟩ := sectionTagFacts i hi
  have hbody : cleanBefore (sectionCloseTag i)
      (titleOpenTag ++ t ++ titleCloseTag ++ gap) = true :=
    cleanBefore_append _ _
      (cleanBefore_append _ _
        (cleanBefore_append _ _ f1
          (cleanBefore_headLT (sectionCloseTag_head i) ht)) f2)
      (cleanBefore_headLT (sectionCloseTag_head i) hgap)
  have hsec : extractDelim (sectionOpenTag i) (sectionCloseTag i)
      (pre ++ sectionOpenTag i ++ titleOpenTag ++ t ++ titleCloseTag ++ gap ++
        sectionCloseTag i ++ post) =
      some (titleOpenTag ++ t ++ titleCloseTag ++ gap) := by
    have h := extractDelim_of_parts (sectionOpenTag i) (sectionCloseTag i) pre
      (titleOpenTag ++ t ++ titleCloseTag ++ gap) post
      (sectionOpenTag_ne_nil i) (sectionCloseTag_ne_nil i) hpre hbody
    simpa [List.append_assoc] using h
  have htitle : extractDelim titleOpenTag titleCloseTag
      (titleOpenTag ++ t ++ titleCloseTag ++ gap) = some t := by
    have h := extractDelim_of_parts titleOpenTag titleCloseTag [] t gap
      (ne_nil_of_headLT titleOpenTag_head) (ne_nil_of_headLT titleCloseTag_head)
      rfl (cleanBefore_headLT titleCloseTag_head ht)
    simpa [List.append_assoc] using h
  have hnocontent : extractDelim contentOpenTag contentCloseTag
      (titleOpenTag ++ t ++ titleCloseTag ++ gap) = none :=
    extractDelim_none_of_clean _ _ _
      (cleanBefore_append _ _
        (cleanBefore_append _ _
          (cleanBefore_append _ _ contentTagFacts.1
            (cleanBefore_headLT contentOpenTag_head ht)) contentTagFacts.2)
        (cleanBefore_headLT contentOpenTag_head hgap))
  simp only [parseSection, hsec, htitle, hnocontent]

lemma parseFinal_absent (input : List Char)
    (h : extractDelim finalOpenTag finalCloseTag input = none) :
    parseFinalAssessment input = finalPlaceholder := by
  simp [parseFinalAssessment, h]

/-- A `<FINAL_ASSESSMENT>` block without an inner `<CONTENT>` delimiter
yields the whole inner block, stripped. -/
lemma parseFinal_nocontent (pre b post : List Char)
    (hpre : cleanBefore finalOpenTag pre = true) (hb : noLT b = true) :
    parseFinalAssessment (pre ++ finalOpenTag ++ b ++ finalCloseTag ++ post) =
      trimChars b := by
  have hfin : extractDelim finalOpenTag finalCloseTag
      (pre ++ finalOpenTag ++ b ++ finalCloseTag ++ post) = some b := by
    have h := extractDelim_of_parts finalOpenTag finalCloseTag pre b post
      (ne_nil_of_headLT finalOpenTag_head) (ne_nil_of_headLT finalCloseTag_head)
      hpre (cleanBefore_headLT finalCloseTag_head hb)
    simpa [List.append_assoc] using h
  have hnc : extractDelim contentOpenTag contentCloseTag b = none :=
    extractDelim_none_of_clean _ _ _ (cleanBefore_headLT contentOpenTag_head hb)
  simp only [parseFinalAssessment, hfin, hnc]

end CCV

namespace CCV

/-! ## Claim theorems -/

/-- C1: for every input text, `parse_structured_research` returns exactly
6 section records plus exactly one final-assessment text (it is a total
function, so it never throws); every section index `k+1` (for `k < 6`)
whose `<SECTION_i>…</SECTION_i>` block is absent from the input is the
fixed placeholder record carrying the "not generated" warning as its
content, and the placeholder final-assessment text is used when the
`<FINAL_ASSESSMENT>` block is absent — so the result shape is fixed
regardless of input. -/
theorem C1_parse_structured_shape (input : List Char) :
    (parse_structured_research input).1.length = 6 ∧
      (∀ k, k < 6 →
        extractDelim (sectionOpenTag (k + 1)) (sectionCloseTag (k + 1)) input = none →
        (parse_structured_research input).1[k]? = some (placeholderSection (k + 1))) ∧
      (extractDelim finalOpenTag finalCloseTag input = none →
        (parse_structured_research input).2 = finalPlaceholder) := by
  refine ⟨by simp [parse_structured_research], ?_, ?_⟩
  · intro k hk h
    simp [parse_structured_research, List.getElem?_map, List.getElem?_range, hk,
      parseSection_absent _ _ h]
  · intro h
    simpa [parse_structured_research] using parseFinal_absent input h

theorem C1_witness :
    (parse_structured_research []).1.length = 6 ∧
      (parse_structured_research []).1[0]? = some (placeholderSection 1) ∧
      (parse_structured_research []).2 = finalPlaceholder :=
  ⟨(C1_parse_structured_shape []).1,
    (C1_parse_structured_shape []).2.1 0 (by decide) rfl,
    (C1_parse_structured_shape []).2.2 rfl⟩

/-- C2: for each `i` in 1..6, a well-formed `<SECTION_i>` block with inner
`<TITLE>` and `<CONTENT>` sub-blocks parses to the inner delimited text
verbatim after trimming (first conjunct); the content defaults to the empty
string when the inner `<CONTENT>` delimiter is missing (second conjunct); a
section whose block is absent gets the fixed placeholder (third conjunct) —
all regardless of the surrounding text `pre`/`post`, hence independent of
which other sections are present; the fourth conjunct ties `parseSection`
to the records `parse_structured_research` returns. -/
theorem C2_section_parsing :
    (∀ i, 1 ≤ i → i ≤ 6 → ∀ pre t gap c post,
      cleanBefore (sectionOpenTag i) pre = true →
      noLT t = true → noLT gap = true → noLT c = true →
      parseSection i
        (pre ++ sectionOpenTag i ++ titleOpenTag ++ t ++ titleCloseTag ++ gap ++
          contentOpenTag ++ c ++ contentCloseTag ++ sectionCloseTag i ++ post) =
        { num := natChars i
          name := trimChars t
          title := ("SECTION ".data) ++ natChars i ++ (" - ".data) ++ trimChars t
          content := trimChars c }) ∧
    (∀ i, 1 ≤ i → i ≤ 6 → ∀ pre t gap post,
      cleanBefore (sectionOpenTag i) pre = true →
      noLT t = true → noLT gap = true →
      parseSection i
        (pre ++ sectionOpenTag i ++ titleOpenTag ++ t ++ titleCloseTag ++ gap ++
          sectionCloseTag i ++ post) =
        { num := natChars i
          name := trimChars t
          title := ("SECTION ".data) ++ natChars i ++ (" - ".data) ++ trimChars t
          content := [] }) ∧
    (∀ i input, cleanBefore (sectionOpenTag i) input = true →
      parseSection i input = placeholderSection i) ∧
    (∀ input k, k < 6 →
      (parse_structured_research input).1[k]? = some (parseSection (k + 1) input)) := by
  refine ⟨?_, ?_, ?_, ?_⟩
  · intro i h1 h6 pre t gap c post hpre ht hgap hc
    exact parseSection_found_full i (by omega) pre t gap c post hpre ht hgap hc
  · intro i h1 h6 pre t gap post hpre ht hgap
    exact parseSection_found_nocontent i (by omega) pre t gap post hpre ht hgap
  · intro i input h
    exact parseSection_of_clean i input h
  · intro input k hk
    simp [parse_structured_research, List.getElem?_map, List.getElem?_range, hk]

theorem C2_witness :
    (noLT wTitle1 = true ∧ noLT wContent1 = true ∧ noLT ("\n".data) = true ∧
      cleanBefore (sectionOpenTag 3) wDoc1 = true) ∧
    parseSection 1
      ([] ++ sectionOpenTag 1 ++ titleOpenTag ++ wTitle1 ++ titleCloseTag ++
        ("\n".data) ++ contentOpenTag ++ wContent1 ++ contentCloseTag ++
        sectionCloseTag 1 ++ []) =
      { num := natChars 1
        name := trimChars wTitle1
        title := ("SECTION ".data) ++ natChars 1 ++ (" - ".data) ++ trimChars wTitle1
        content := trimChars wContent1 } ∧
    parseSection 3 wDoc1 = placeholderSection 3 :=
  ⟨⟨by decide, by decide, by decide, by decide⟩,
    C2_section_parsing.1 1 (by decide) (by decide) [] wTitle1 ("\n".data) wContent1 []
      rfl (by decide) (by decide) (by decide),
    C2_section_parsing.2.2.1 3 wDoc1 (by decide)⟩

/-- C10: a `<FINAL_ASSESSMENT>` block lacking an inner `<CONTENT>`
delimiter yields the entire inner block stripped (first conjunct), while a
section block lacking its inner `<CONTENT>` delimiter defaults to the
empty-string content (second conjunct). -/
theorem C10_final_without_content :
    (∀ pre b post, cleanBefore finalOpenTag pre = true → noLT b = true →
      parseFinalAssessment (pre ++ finalOpenTag ++ b ++ finalCloseTag ++ post) =
        trimChars b) ∧
    (∀ i, 1 ≤ i → i ≤ 6 → ∀ pre t gap post,
      cleanBefore (sectionOpenTag i) pre = true →
      noLT t = true → noLT gap = true →
      (parseSection i
        (pre ++ sectionOpenTag i ++ titleOpenTag ++ t ++ titleCloseTag ++ gap ++
          sectionCloseTag i ++ post)).content = []) := by
  constructor
  · intro pre b post hpre hb
    exact parseFinal_nocontent pre b post hpre hb
  · intro i h1 h6 pre t gap post hpre ht hgap
    rw [parseSection_found_nocontent i (by omega) pre t gap post hpre ht hgap]

theorem C10_witness :
    (noLT wFinalBody = true) ∧
    parseFinalAssessment ([] ++ finalOpenTag ++ wFinalBody ++ finalCloseTag ++ []) =
      trimChars wFinalBody ∧
    trimChars wFinalBody ≠ [] :=
  ⟨by decide,
    C10_final_without_content.1 [] wFinalBody [] rfl (by decide),
    by decide⟩

/-- C3 counterexample: at the fixed "now" of 2024-06-15 the computed
window start is not `2021-06-21` (it is 2021-06-16: three of the 1095 days
land before the 2024 leap day, so the start is five days later than the
claimed date). -/
theorem C3_counterexample :
    (compute_audit_window (2024, 6, 15)).1 ≠ "2021-06-21".data := by
  decide

/-- C3 (amended): the window is today minus exactly 1095 days through
today; with the fixed "now" of 2024-06-15 the start equals 2021-06-16 (not
2021-06-21) and the end equals 2024-06-15.  The second conjunct checks the
"exactly 1095 days" gap independently of the formatting. -/
theorem C3_audit_window_amended :
    compute_audit_window (2024, 6, 15) = ("2021-06-16".data, "2024-06-15".data) ∧
      daysFromCivil 2021 6 16 + 1095 = daysFromCivil 2024 6 15 := by
  constructor <;> decide

/-- C4 counterexample: on a kept line whose description contains a second
pipe, the source keeps only the text between the first and second pipes
(`parts[1]`), while the claimed "split on the first pipe" reading keeps
everything after the first pipe — the two disagree. -/
theorem C4_counterexample :
    parse_cpt_codes cptCexInput = [("1".data, "a".data)] ∧
      parse_cpt_codes_claim cptCexInput = [("1".data, "a | b".data)] := by
  constructor <;> decide

/-- C4 (amended): `parse_cpt_codes` keeps exactly the lines containing
both markers, splits each kept line on every pipe and uses the first two
fields — the code is taken between the first and second `CODE:` of the
field before the first pipe and the description between the first and
second `DESCRIPTION:` of the field between the first and second pipe (so
text after a second pipe is discarded) — trimming both; malformed kept
lines are silently dropped, the two-line example parses to the two records
in order, and text with no marked line yields the empty list. -/
theorem C4_parse_cpt_codes_amended :
    parse_cpt_codes cptExampleInput =
      [("10021".data, "Fine needle aspiration".data),
        ("10022".data, "FNA, each additional".data)] ∧
      (∀ input,
        (∀ line ∈ splitOnChar '\n' (trimChars input),
          ¬(containsSub codeMarker line = true ∧ containsSub descMarker line = true)) →
        parse_cpt_codes input = []) ∧
      parse_cpt_codes cptCexInput = [("1".data, "a".data)] := by
  refine ⟨by decide, ?_, by decide⟩
  intro input h
  rw [parse_cpt_codes, List.filterMap_eq_nil_iff]
  intro line hline
  have hg : (containsSub codeMarker line && containsSub descMarker line) = false := by
    cases hA : containsSub codeMarker line <;>
      cases hB : containsSub descMarker line <;>
      simp_all [h line hline]
  simp [hg]

theorem C4_witness :
    parse_cpt_codes ("The topic was too vague to name codes.".data) = [] :=
  C4_parse_cpt_codes_amended.2.1 ("The topic was too vague to name codes.".data)
    (by decide)

/-- C5 counterexample: the medgemma model is a supported model name, its
required connection setting (the URL) comes from the process environment,
yet with every environment value absent `query_llm` does not fail with the
configuration error — it proceeds to post to the missing URL. -/
theorem C5_counterexample :
    medgemmaName ∈ MODEL_NAMES ∧
      query_llm (fun _ => none) medgemmaName = .medgemmaRequest none ∧
      isConfigError (query_llm (fun _ => none) medgemmaName) = false := by
  refine ⟨by decide, rfl, rfl⟩

/-- Guard behaviour of the default (Azure) branch of `query_llm`. -/
lemma azure_guard {env : List Char → Option (List Char)}
    {model dep kv ev ver : List Char}
    (hmed : model ≠ medgemmaName)
    (hcfg : MODEL_CONFIGS env model = some ⟨dep, env kv, env ev, ver⟩)
    (h : truthy (env kv) = false ∨ truthy (env ev) = false) :
    query_llm env model = .configError (configErrorMsg model) := by
  rw [query_llm, if_neg hmed, hcfg]
  rcases h with h | h <;> simp [h]

/-- C5 (amended): for each of the six Azure-backed model names, `query_llm`
fails with the descriptive `ValueError` configuration error whenever the
model's API-key or endpoint environment value is absent or empty, instead
of proceeding with a silent default; the medgemma model is the exception —
its URL is never validated. -/
theorem C5_config_error_amended :
    ∀ model ∈ azureModelNames, ∀ env : List Char → Option (List Char),
      truthy (env (keyVarOf model)) = false ∨
        truthy (env (endpointVarOf model)) = false →
      query_llm env model = .configError (configErrorMsg model) := by
  intro model hm env h
  fin_cases hm <;> exact azure_guard (by decide) rfl h

theorem C5_witness :
    ("gpt-5-mini".data ∈ azureModelNames) ∧
      query_llm (fun _ => none) ("gpt-5-mini".data) =
        .configError (configErrorMsg ("gpt-5-mini".data)) :=
  ⟨by decide,
    C5_config_error_amended ("gpt-5-mini".data) (by decide) (fun _ => none)
      (Or.inl rfl)⟩

/-! ### Lemmas for the notes upsert / chat append claim -/

lemma noteKeyMatch_updateNote (sid code t ts : List Char) (r : Note) :
    noteKeyMatch sid code (updateNote sid code t ts r) = noteKeyMatch sid code r := by
  rw [updateNote]
  cases h : noteKeyMatch sid code r
  · simp [h]
  · simp only [if_true, h]
    simp [noteKeyMatch] at h ⊢
    exact h

lemma notesFor_map_update (st : List Note) (sid code t ts : List Char) :
    notesFor (st.map (updateNote sid code t ts)) sid code =
      (notesFor st sid code).map (updateNote sid code t ts) := by
  rw [notesFor, notesFor, List.filter_map]
  congr 1
  apply List.filter_congr
  intro r _
  exact noteKeyMatch_updateNote sid code t ts r

lemma notes_text_after_update (st : List Note) (sid code t ts : List Char) :
    ∀ r ∈ notesFor (st.map (updateNote sid code t ts)) sid code,
      r.notes_text = t := by
  intro r hr
  rw [notesFor_map_update] at hr
  obtain ⟨r0, hr0, rfl⟩ := List.mem_map.mp hr
  rw [notesFor] at hr0
  have hm : noteKeyMatch sid code r0 = true := (List.mem_filter.mp hr0).2
  simp [updateNote, hm]

lemma any_map_updateNote (st : List Note) (sid code t ts : List Char) :
    (st.map (updateNote sid code t ts)).any (noteKeyMatch sid code) =
      st.any (noteKeyMatch sid code) := by
  rw [List.any_map]
  congr 1
  funext r
  exact noteKeyMatch_updateNote sid code t ts r

lemma chat_rows_append (cst : List ChatRow) (sid code sec u a ts : List Char) :
    chatFor (save_chat_message cst sid code sec u a ts) sid code sec =
      chatFor cst sid code sec ++ [⟨sid, code, sec, u, a, ts⟩] := by
  simp [save_chat_message, chatFor, List.filter_append, chatKeyMatch]

/-- C6: starting from at most one stored row for a `(session, code)` key,
saving a note twice leaves exactly one row for that key and its text is
the one from the latest call (first two conjuncts); saving chat messages
twice for a `(session, code, section)` key with no prior rows appends two
rows (third conjunct) which `get_chat_history` returns in timestamp order
(fourth conjunct). -/
theorem C6_notes_upsert_chat_append
    (st : List Note) (sid code t1 t2 ts1 ts2 : List Char)
    (hst : (notesFor st sid code).length ≤ 1)
    (cst : List ChatRow) (csid ccode csec u1 a1 u2 a2 cts1 cts2 : List Char)
    (hfresh : chatFor cst csid ccode csec = [])
    (hord : ltChars cts2 cts1 = false) :
    (notesFor (save_notes (save_notes st sid code t1 ts1) sid code t2 ts2)
        sid code).length = 1 ∧
    (∀ r ∈ notesFor (save_notes (save_notes st sid code t1 ts1) sid code t2 ts2)
        sid code, r.notes_text = t2) ∧
    chatFor (save_chat_message (save_chat_message cst csid ccode csec u1 a1 cts1)
        csid ccode csec u2 a2 cts2) csid ccode csec =
      [⟨csid, ccode, csec, u1, a1, cts1⟩, ⟨csid, ccode, csec, u2, a2, cts2⟩] ∧
    get_chat_history (save_chat_message (save_chat_message cst csid ccode csec u1 a1 cts1)
        csid ccode csec u2 a2 cts2) csid ccode csec =
      [(u1, a1, cts1), (u2, a2, cts2)] := by
  have hchat : chatFor (save_chat_message (save_chat_message cst csid ccode csec u1 a1 cts1)
      csid ccode csec u2 a2 cts2) csid ccode csec =
      [⟨csid, ccode, csec, u1, a1, cts1⟩, ⟨csid, ccode, csec, u2, a2, cts2⟩] := by
    rw [chat_rows_append, chat_rows_append, hfresh]
    rfl
  have hnotes : (notesFor (save_notes (save_notes st sid code t1 ts1) sid code t2 ts2)
        sid code).length = 1 ∧
      ∀ r ∈ notesFor (save_notes (save_notes st sid code t1 ts1) sid code t2 ts2)
        sid code, r.notes_text = t2 := by
    by_cases hex : st.any (noteKeyMatch sid code) = true
    · have hsave1 : save_notes st sid code t1 ts1 =
          st.map (updateNote sid code t1 ts1) := by
        simp [save_notes, hex]
      have hex2 : (st.map (updateNote sid code t1 ts1)).any (noteKeyMatch sid code) = true := by
        rw [any_map_updateNote]; exact hex
      have hsave2 : save_notes (st.map (updateNote sid code t1 ts1)) sid code t2 ts2 =
          (st.map (updateNote sid code t1 ts1)).map (updateNote sid code t2 ts2) := by
        simp [save_notes, hex2]
      rw [hsave1, hsave2]
      constructor
      · rw [notesFor_map_update, notesFor_map_update]
        obtain ⟨r, hr, hm⟩ := List.any_eq_true.mp hex
        have hpos : 0 < (notesFor st sid code).length := by
          have : r ∈ notesFor st sid code := by
            rw [notesFor]
            exact List.mem_filter.mpr ⟨hr, hm⟩
          exact List.length_pos.mpr (List.ne_nil_of_mem this)
        simp only [List.length_map]
        omega
      · exact notes_text_after_update _ sid code t2 ts2
    · have hex' : st.any (noteKeyMatch sid code) = false := by
        cases h : st.any (noteKeyMatch sid code)
        · rfl
        · exact absurd h hex
      have hsave1 : save_notes st sid code t1 ts1 =
          st ++ [⟨sid, code, t1, ts1, ts1⟩] := by
        simp [save_notes, hex', hex]
      have hrow : noteKeyMatch sid code (⟨sid, code, t1, ts1, ts1⟩ : Note) = true := by
        simp [noteKeyMatch]
      have hex2 : (st ++ [(⟨sid, code, t1, ts1, ts1⟩ : Note)]).any
          (noteKeyMatch sid code) = true := by
        simp [List.any_append, hrow]
      have hsave2 : save_notes (st ++ [(⟨sid, code, t1, ts1, ts1⟩ : Note)]) sid code t2 ts2 =
          (st ++ [(⟨sid, code, t1, ts1, ts1⟩ : Note)]).map (updateNote sid code t2 ts2) := by
        simp [save_notes, hex2]
      have hempty : notesFor st sid code = [] := by
        rw [notesFor, List.filter_eq_nil_iff]
        intro a ha
        exact List.any_eq_false.mp hex' a ha
      rw [hsave1, hsave2]
      constructor
      · rw [notesFor_map_update, notesFor, List.filter_append, ← notesFor, hempty]
        simp [hrow]
      · exact notes_text_after_update _ sid code t2 ts2
  refine ⟨hnotes.1, hnotes.2, hchat, ?_⟩
  rw [get_chat_history, hchat]
  simp [sortByTs, insertByTs, hord]

theorem C6_witness :
    ((notesFor [] ("s1".data) ("10021".data)).length ≤ 1 ∧
      chatFor [] ("s1".data) ("10021".data) ("1".data) = [] ∧
      ltChars ("2024-01-02 10:00:00".data) ("2024-01-01 10:00:00".data) = false) ∧
    (notesFor (save_notes (save_notes [] ("s1".data) ("10021".data) ("draft".data)
        ("2024-01-01 10:00:00".data)) ("s1".data) ("10021".data) ("final".data)
        ("2024-01-02 10:00:00".data)) ("s1".data) ("10021".data)).length = 1 ∧
    get_chat_history (save_chat_message (save_chat_message [] ("s1".data)
        ("10021".data) ("1".data) ("q1".data) ("a1".data) ("2024-01-01 10:00:00".data))
        ("s1".data) ("10021".data) ("1".data) ("q2".data) ("a2".data)
        ("2024-01-02 10:00:00".data)) ("s1".data) ("10021".data) ("1".data) =
      [("q1".data, "a1".data, "2024-01-01 10:00:00".data),
        ("q2".data, "a2".data, "2024-01-02 10:00:00".data)] :=
  ⟨⟨by decide, rfl, by decide⟩,
    (C6_notes_upsert_chat_append [] ("s1".data) ("10021".data) ("draft".data)
      ("final".data) ("2024-01-01 10:00:00".data) ("2024-01-02 10:00:00".data)
      (by decide) [] ("s1".data) ("10021".data) ("1".data) ("q1".data) ("a1".data)
      ("q2".data) ("a2".data) ("2024-01-01 10:00:00".data)
      ("2024-01-02 10:00:00".data) rfl (by decide)).1,
    (C6_notes_upsert_chat_append [] ("s1".data) ("10021".data) ("draft".data)
      ("final".data) ("2024-01-01 10:00:00".data) ("2024-01-02 10:00:00".data)
      (by decide) [] ("s1".data) ("10021".data) ("1".data) ("q1".data) ("a1".data)
      ("q2".data) ("a2".data) ("2024-01-01 10:00:00".data)
      ("2024-01-02 10:00:00".data) rfl (by decide)).2.2.2⟩

/-- C7: renaming a session maps every stored interaction row
position-by-position — a row whose `session_id` matches gets exactly its
`topic` field replaced (all other fields kept), and every other row is
returned unchanged; in particular the store keeps its length and order. -/
theorem C7_rename_topic_only (st : List Interaction) (sid nt : List Char) :
    (rename_session st sid nt).length = st.length ∧
      ∀ (i : Nat) (r : Interaction), st[i]? = some r →
        (rename_session st sid nt)[i]? =
          some (if r.session_id = sid then { r with topic := nt } else r) := by
  refine ⟨by simp [rename_session], ?_⟩
  intro i r h
  simp [rename_session, List.getElem?_map, h]

theorem C7_witness :
    ([wRowA, wRowB][0]? = some wRowA ∧ [wRowA, wRowB][1]? = some wRowB) ∧
      (rename_session [wRowA, wRowB] ("s1".data) ("new".data))[0]? =
        some (if wRowA.session_id = "s1".data then { wRowA with topic := "new".data }
          else wRowA) ∧
      (rename_session [wRowA, wRowB] ("s1".data) ("new".data))[1]? =
        some (if wRowB.session_id = "s1".data then { wRowB with topic := "new".data }
          else wRowB) :=
  ⟨⟨rfl, rfl⟩,
    (C7_rename_topic_only [wRowA, wRowB] ("s1".data) ("new".data)).2 0 wRowA rfl,
    (C7_rename_topic_only [wRowA, wRowB] ("s1".data) ("new".data)).2 1 wRowB rfl⟩

/-- C8: when the LLM call raises, `generate_cpt_codes_from_topic` returns
the text `"Error generating CPT codes: " ++ str(e)` and `chat_with_section`
returns `"Error: " ++ str(e)` — both catch the exception instead of
propagating it. -/
theorem C8_llm_errors_become_text
    (llm : List ChatMsg → Except (List Char) (List Char))
    (topic section_content cpt_code user_question : List Char)
    (chat_history : List (List Char × List Char)) (e1 e2 : List Char)
    (h1 : llm (cptMessages topic) = .error e1)
    (h2 : llm (chatMessages section_content cpt_code user_question chat_history) =
      .error e2) :
    generate_cpt_codes_from_topic llm topic =
        ("Error generating CPT codes: ".data) ++ e1 ∧
      chat_with_section llm section_content cpt_code user_question chat_history =
        ("Error: ".data) ++ e2 := by
  constructor
  · simp [generate_cpt_codes_from_topic, h1]
  · simp [chat_with_section, h2]

theorem C8_witness :
    generate_cpt_codes_from_topic (fun _ => .error ("boom".data))
        ("knee arthroscopy".data) =
      ("Error generating CPT codes: ".data) ++ ("boom".data) ∧
      chat_with_section (fun _ => .error ("boom".data)) ("section text".data)
        ("10021".data) ("why?".data) [] =
      ("Error: ".data) ++ ("boom".data) :=
  C8_llm_errors_become_text (fun _ => .error ("boom".data))
    ("knee arthroscopy".data) ("section text".data) ("10021".data) ("why?".data)
    [] ("boom".data) ("boom".data) rfl rfl

/-- C9: deleting a session removes exactly that session's rows from the
interactions store — afterwards the session has no rows and every other
session's row list is unchanged — and the other store operations never
remove a row: renaming keeps every session's row count and appending an
interaction never decreases it. -/
theorem C9_delete_session_scoped (st : List Interaction) (sid other : List Char)
    (hne : other ≠ sid) :
    rowsOfSession (delete_session st sid) sid = [] ∧
      rowsOfSession (delete_session st sid) other = rowsOfSession st other ∧
      (∀ nt s, (rowsOfSession (rename_session st sid nt) s).length =
        (rowsOfSession st s).length) ∧
      (∀ topic persona q resp ts s,
        (rowsOfSession st s).length ≤
          (rowsOfSession (save_interaction st sid topic persona q resp ts) s).length) := by
  refine ⟨?_, ?_, ?_, ?_⟩
  · rw [rowsOfSession, delete_session, List.filter_filter, List.filter_eq_nil_iff]
    intro r _
    simp
  · rw [rowsOfSession, delete_session, List.filter_filter, rowsOfSession]
    apply List.filter_congr
    intro r _
    cases h : (r.session_id == other)
    · simp
    · have : r.session_id = other := by simpa using h
      simp [this, hne]
  · intro nt s
    rw [rowsOfSession, rename_session, List.filter_map, rowsOfSession]
    rw [List.length_map]
    congr 1
    apply List.filter_congr
    intro r _
    by_cases h : r.session_id = sid <;> simp [h]
  · intro topic persona q resp ts s
    simp only [rowsOfSession, save_interaction, List.filter_append,
      List.length_append]
    omega

theorem C9_witness :
    ("s2".data ≠ "s1".data) ∧
      rowsOfSession (delete_session [wRowA, wRowB] ("s1".data)) ("s1".data) = [] ∧
      rowsOfSession (delete_session [wRowA, wRowB] ("s1".data)) ("s2".data) =
        rowsOfSession [wRowA, wRowB] ("s2".data) :=
  ⟨by decide,
    (C9_delete_session_scoped [wRowA, wRowB] ("s1".data) ("s2".data) (by decide)).1,
    (C9_delete_session_scoped [wRowA, wRowB] ("s1".data) ("s2".data) (by decide)).2.1⟩

end CCV
